import Mathlib

/-!
Shallow embedding of the spare-part-finder core logic
(src/utils/matchUtils.js and the enrichment step of
src/controllers/sellerController.js) together with theorems checking the
specification's claims about it.

JavaScript numbers are modelled as exact rationals; every call to
Math.random() is modelled as an explicit rational parameter assumed to lie
in [0, 1); the array shuffle obtained in the source through
Array.prototype.sort with a random comparator is modelled as an arbitrary
permutation-producing parameter.
-/

namespace SparePartFinder

/-! ### String helpers: JavaScript String.prototype.includes / toLowerCase -/

/-- Character-list prefix test used to implement the substring test. -/
def isPrefixOfChars : List Char → List Char → Bool
  | [], _ => true
  | _ :: _, [] => false
  | a :: as, b :: bs => a == b && isPrefixOfChars as bs

/-- Does the needle occur as a contiguous run inside the haystack? -/
def hasSubstring (needle : List Char) : List Char → Bool
  | [] => isPrefixOfChars needle []
  | h :: t => isPrefixOfChars needle (h :: t) || hasSubstring needle t

/-- JavaScript s.includes(sub): substring containment test. -/
def strIncludes (s sub : String) : Bool :=
  hasSubstring sub.data s.data

/-- JavaScript String.prototype.toLowerCase per character: ASCII A-Z plus
the Turkish capitals appearing in this code base are mapped to their
single-character lowercase forms; every other character is unchanged.
(The Unicode expansion of U+0130 to two code points is approximated by
the single letter i; no keyword and no claim input contains U+0130.) -/
def jsCharToLower (c : Char) : Char :=
  if 65 ≤ c.toNat ∧ c.toNat ≤ 90 then Char.ofNat (c.toNat + 32)
  else if c = 'Ç' then 'ç'
  else if c = 'Ğ' then 'ğ'
  else if c = 'İ' then 'i'
  else if c = 'Ö' then 'ö'
  else if c = 'Ş' then 'ş'
  else if c = 'Ü' then 'ü'
  else c

/-- JavaScript description.toLowerCase(). -/
def jsToLower (s : String) : String :=
  ⟨s.data.map jsCharToLower⟩

/-! ### Classifier data model (interpretPartFromText) -/

/-- One entry of a category's parts list: name, stable id, base confidence
weight. -/
structure CandidatePart where
  name : String
  id : String
  confidence : ℚ
deriving DecidableEq

/-- One entry of the partMappings table: category name, keyword list,
candidate parts (first entry is the category's top-weighted part). -/
structure CategoryMapping where
  category : String
  keywords : List String
  parts : List CandidatePart
deriving DecidableEq

/-- Output of the classifier. -/
structure Suggestion where
  name : String
  id : String
  confidence : ℚ
  category : String
  matchedKeywords : ℕ
deriving DecidableEq

/-- The fren (brake) entry of the partMappings table. -/
def frenMapping : CategoryMapping :=
  { category := "fren",
    keywords := ["fren", "balata", "disk", "durmuyor", "tutmuyor",
                 "gıcırdıyor", "ses", "titreşim", "pedal"],
    parts := [⟨"Fren Balatası Ön", "part-fren-001", 9/10⟩,
              ⟨"Fren Balatası Arka", "part-fren-002", 85/100⟩,
              ⟨"Fren Diski Ön", "part-fren-003", 8/10⟩,
              ⟨"ABS Sensörü", "part-fren-010", 7/10⟩] }

/-- The motor (engine) entry of the partMappings table. -/
def motorMapping : CategoryMapping :=
  { category := "motor",
    keywords := ["motor", "çalışmıyor", "titreşim", "ses", "duman",
                 "yağ", "soğutma", "ısınma", "güç", "performans"],
    parts := [⟨"Motor Yağı", "part-motor-037", 8/10⟩,
              ⟨"Hava Filtresi", "part-motor-016", 75/100⟩,
              ⟨"Buji", "part-motor-020", 7/10⟩,
              ⟨"Yağ Filtresi", "part-motor-017", 7/10⟩] }

/-- The elektrik (electrical) entry of the partMappings table. -/
def elektrikMapping : CategoryMapping :=
  { category := "elektrik",
    keywords := ["elektrik", "akü", "şarj", "çalışmıyor", "ışık",
                 "far", "sinyal", "klakson", "cam"],
    parts := [⟨"Akü", "part-elektrik-001", 9/10⟩,
              ⟨"Alternatör", "part-elektrik-002", 8/10⟩,
              ⟨"Far Ampulü", "part-elektrik-010", 7/10⟩,
              ⟨"Sigorta Kutusu", "part-elektrik-006", 6/10⟩] }

/-- The suspansiyon (suspension) entry of the partMappings table. -/
def suspansiyonMapping : CategoryMapping :=
  { category := "suspansiyon",
    keywords := ["amortisör", "yay", "salıncak", "direksiyon",
                 "titreşim", "sarsıntı", "ses", "çukur"],
    parts := [⟨"Amortisör Ön Sol", "part-suspansiyon-001", 85/100⟩,
              ⟨"Amortisör Ön Sağ", "part-suspansiyon-002", 85/100⟩,
              ⟨"Stabilizatör Çubuğu", "part-suspansiyon-023", 7/10⟩,
              ⟨"Rotil", "part-suspansiyon-013", 65/100⟩] }

/-- The klima (climate) entry of the partMappings table. -/
def klimaMapping : CategoryMapping :=
  { category := "klima",
    keywords := ["klima", "soğutmuyor", "ısıtmıyor", "hava", "fan",
                 "filtre", "gaz", "kompresör"],
    parts := [⟨"Klima Filtresi", "part-klima-004", 8/10⟩,
              ⟨"Klima Kompresörü", "part-klima-001", 75/100⟩,
              ⟨"Klima Gazı R134a", "part-klima-005", 7/10⟩,
              ⟨"Kabin Filtresi", "part-klima-022", 65/100⟩] }

/-- The partMappings table of interpretPartFromText, in the source declared
(and hence Object.entries) order: fren, motor, elektrik, suspansiyon,
klima. -/
def partMappings : List CategoryMapping :=
  [frenMapping, motorMapping, elektrikMapping, suspansiyonMapping, klimaMapping]

/-- Number of the mapping's keywords occurring (as substrings) in the
lowered text: the keywordMatches counter of the source's forEach loop. -/
def keywordMatches (text : String) (m : CategoryMapping) : ℕ :=
  m.keywords.countP (fun keyword => strIncludes text keyword)

/-- Keyword-density confidence of a category:
Math.min(0.95, (keywordMatches / mapping.keywords.length) * 0.8 + 0.2). -/
def densityConf (k n : ℕ) : ℚ :=
  min (95/100) ((k / n : ℚ) * (8/10) + 2/10)

/-- State of the category scan: bestMatch so far and highestConfidence. -/
structure ScanState where
  bestMatch : Option Suggestion
  highestConfidence : ℚ

/-- The suggestion built when a category improves on the running best:
{...bestPart, confidence: adjustedConfidence, category, matchedKeywords}. -/
def mkSuggestion (m : CategoryMapping) (bestPart : CandidatePart)
    (adjustedConfidence : ℚ) (k : ℕ) : Suggestion :=
  ⟨bestPart.name, bestPart.id, adjustedConfidence, m.category, k⟩

/-- One iteration of the for-loop over Object.entries(partMappings).
The empty-parts branch is unreachable for the concrete table (every
mapping has four parts); the source would fail there reading parts[0]. -/
def scanStep (text : String) (s : ScanState) (m : CategoryMapping) : ScanState :=
  let k := keywordMatches text m
  if 0 < k then
    match m.parts.head? with
    | none => s
    | some bestPart =>
      let confidence := densityConf k m.keywords.length
      let adjustedConfidence := bestPart.confidence * confidence
      if s.highestConfidence < adjustedConfidence then
        ⟨some (mkSuggestion m bestPart adjustedConfidence k), adjustedConfidence⟩
      else s
  else s

/-- The default fallback suggestion when no category matched. -/
def fallbackSuggestion : Suggestion :=
  ⟨"Genel Kontrol Gerekli", "part-general-001", 3/10, "general", 0⟩

/-- The classifier on already-lowercased text. -/
def interpretLow (text : String) : Suggestion :=
  (partMappings.foldl (scanStep text) ⟨none, 0⟩).bestMatch.getD fallbackSuggestion

set_option linter.unusedVariables false in
/-- interpretPartFromText(description, vin): lowercases the description
and scans the categories; the vin parameter is accepted and unused,
exactly as in the source. -/
def interpretPartFromText (description vin : String) : Suggestion :=
  interpretLow (jsToLower description)

/-- Adjusted confidence a category would contribute (0 when its parts
list is empty). -/
def adjConf (text : String) (m : CategoryMapping) : ℚ :=
  match m.parts.head? with
  | none => 0
  | some bestPart =>
      bestPart.confidence * densityConf (keywordMatches text m) m.keywords.length

/-- A category contributes a candidate iff it matched at least one
keyword and has a part to propose. -/
def eligB (text : String) (m : CategoryMapping) : Bool :=
  (0 < keywordMatches text m) && !m.parts.isEmpty

/-! ### Offer synthesizer (generateSellersForPart) -/

/-- A seller profile from the pool (the fields the synthesizer reads,
plus the profile's specialties list). -/
structure Seller where
  name : String
  location : String
  rating : ℚ
  phone : String
  email : String
  specialties : List String
deriving DecidableEq

/-- A synthesized offer, as pushed onto selectedSellers. -/
structure Offer where
  name : String
  location : String
  price : ℤ
  stock : ℕ
  rating : ℚ
  phone : String
  email : String
deriving DecidableEq

/-- Offers are compared by price: the comparator (a, b) => a.price - b.price. -/
def priceLe (a b : Offer) : Prop := a.price ≤ b.price

instance : DecidableRel priceLe := fun a b => Int.decLe a.price b.price

instance : IsTotal Offer priceLe := ⟨fun a b => Int.le_total a.price b.price⟩

instance : IsTrans Offer priceLe := ⟨fun _ _ _ h1 h2 => le_trans h1 h2⟩

/-- selectedSellers.sort((a, b) => a.price - b.price). -/
def sortOffersByPrice (l : List Offer) : List Offer :=
  l.insertionSort priceLe

/-- The fixed base-price lookup on partId, first matching substring rule
wins: motor, fren, elektrik, suspansiyon, klima, govde, ic-aksam,
default 100. -/
def basePriceFor (partId : String) : ℕ :=
  if strIncludes partId "motor" then 800
  else if strIncludes partId "fren" then 300
  else if strIncludes partId "elektrik" then 200
  else if strIncludes partId "suspansiyon" then 400
  else if strIncludes partId "klima" then 250
  else if strIncludes partId "govde" then 600
  else if strIncludes partId "ic-aksam" then 150
  else 100

/-- One loop body of the synthesizer: price variation
(priceRand - 0.5) * 0.4, price Math.round(basePrice * (1 + variation)),
stock Math.floor(stockRand * 25) + 1, contact fields copied through. -/
def mkOffer (partId : String) (seller : Seller) (priceRand stockRand : ℚ) : Offer :=
  let basePrice := basePriceFor partId
  let priceVariation := (priceRand - 1/2) * (4/10)
  let price := round ((basePrice : ℚ) * (1 + priceVariation))
  let stock := (⌊stockRand * 25⌋ + 1).toNat
  ⟨seller.name, seller.location, price, stock, seller.rating,
   seller.phone, seller.email⟩

/-- The synthesizer after the shuffle: numSellers is
Math.floor(numRand * 4) + 2; the loop runs for
i < min(numSellers, shuffledSellers.length), drawing the i-th price and
stock randoms; the result is sorted ascending by price. -/
def offersFromShuffled (partId : String) (shuffledSellers : List Seller)
    (numRand : ℚ) (priceRands stockRands : ℕ → ℚ) : List Offer :=
  let numSellers := (⌊numRand * 4⌋ + 2).toNat
  let selected := shuffledSellers.take (min numSellers shuffledSellers.length)
  sortOffersByPrice (selected.enum.map
    (fun p => mkOffer partId p.2 (priceRands p.1) (stockRands p.1)))

/-- generateSellersForPart(partId, globalSellers): the shuffle
[...globalSellers].sort(() => 0.5 - Math.random()) is modelled by the
parameter shuffle (an arbitrary reordering; theorems assume it permutes
its input, which Array.prototype.sort always does). -/
def generateSellersForPart (partId : String) (globalSellers : List Seller)
    (numRand : ℚ) (shuffle : List Seller → List Seller)
    (priceRands stockRands : ℕ → ℚ) : List Offer :=
  offersFromShuffled partId (shuffle globalSellers) numRand priceRands stockRands

/-! ### Heap-level view of generateSellersForPart

JavaScript arrays are reference values; to express that the function
never mutates the caller's seller array, arrays are placed in an
explicit store indexed by references. The spread [...globalSellers]
allocates a fresh array, and the in-place .sort acts on that fresh
array only. -/

/-- A store of arrays: contents per reference, plus the next fresh
reference. Valid references are those below nextRef. -/
structure JsHeap where
  arrays : ℕ → List Seller
  nextRef : ℕ

/-- Allocate a fresh array holding v; returns its reference. -/
def allocArr (h : JsHeap) (v : List Seller) : ℕ × JsHeap :=
  (h.nextRef, ⟨fun r => if r = h.nextRef then v else h.arrays r, h.nextRef + 1⟩)

/-- Overwrite the array at reference r (in-place sort). -/
def writeArr (h : JsHeap) (r : ℕ) (v : List Seller) : JsHeap :=
  ⟨fun r2 => if r2 = r then v else h.arrays r2, h.nextRef⟩

/-- generateSellersForPart with the seller pool passed by reference:
reads the pool, copies it by spread into a fresh array, sorts that
fresh array in place, and synthesizes offers from the sorted copy. -/
def generateSellersForPartHeap (partId : String) (poolRef : ℕ) (h : JsHeap)
    (numRand : ℚ) (shuffle : List Seller → List Seller)
    (priceRands stockRands : ℕ → ℚ) : List Offer × JsHeap :=
  let globalSellers := h.arrays poolRef
  let alloc := allocArr h globalSellers
  let copyRef := alloc.1
  let h1 := alloc.2
  let h2 := writeArr h1 copyRef (shuffle (h1.arrays copyRef))
  (offersFromShuffled partId (h2.arrays copyRef) numRand priceRands stockRands, h2)

/-! ### Enrichment (getSellersForPart metadata step in sellerController) -/

/-- An offer with the controller's added metadata. -/
structure EnrichedOffer where
  name : String
  location : String
  price : ℤ
  stock : ℕ
  rating : ℚ
  phone : String
  email : String
  deliveryTime : String
  warranty : String
  paymentMethods : List String
  lastUpdated : String
deriving DecidableEq

/-- generateDeliveryTime's options with their probability weights. -/
def deliveryOptions : List (String × ℚ) :=
  [("1-2 gün", 3/10), ("2-3 gün", 3/10), ("3-5 gün", 25/100),
   ("1 hafta", 1/10), ("Aynı gün", 5/100)]

/-- The cumulative-probability walk of generateDeliveryTime:
accumulate the weights in order and return the first option whose
cumulative sum is reached (random <= cumulative). -/
def deliveryWalk (r cumulative : ℚ) : List (String × ℚ) → Option String
  | [] => none
  | (label, w) :: rest =>
      if r ≤ cumulative + w then some label
      else deliveryWalk r (cumulative + w) rest

/-- generateDeliveryTime(): weighted draw with fallback to options[0]. -/
def generateDeliveryTime (r : ℚ) : String :=
  (deliveryWalk r 0 deliveryOptions).getD "1-2 gün"

/-- generateWarranty(partId): fixed substring lookup. -/
def generateWarranty (partId : String) : String :=
  if strIncludes partId "motor" then "2 yıl garanti"
  else if strIncludes partId "fren" then "1 yıl garanti"
  else if strIncludes partId "elektrik" then "6 ay garanti"
  else if strIncludes partId "suspansiyon" then "1 yıl garanti"
  else if strIncludes partId "klima" then "1 yıl garanti"
  else if strIncludes partId "govde" then "6 ay garanti"
  else "3 ay garanti"

/-- The metadata added per offer by getSellersForPart. -/
def enrichOffer (partId : String) (o : Offer) (deliveryRand : ℚ)
    (now : String) : EnrichedOffer :=
  ⟨o.name, o.location, o.price, o.stock, o.rating, o.phone, o.email,
   generateDeliveryTime deliveryRand, generateWarranty partId,
   ["Nakit", "Kredi Kartı", "Havale"], now⟩

/-- Enriched offers are also compared by price. -/
def priceLeE (a b : EnrichedOffer) : Prop := a.price ≤ b.price

instance : DecidableRel priceLeE := fun a b => Int.decLe a.price b.price

instance : IsTotal EnrichedOffer priceLeE := ⟨fun a b => Int.le_total a.price b.price⟩

instance : IsTrans EnrichedOffer priceLeE := ⟨fun _ _ _ h1 h2 => le_trans h1 h2⟩

/-- The controller's map-then-sort: add metadata to every offer (one
delivery-time random per offer, lastUpdated from the clock), then
sellersWithMetadata.sort((a, b) => a.price - b.price). -/
def enrichAndRank (partId : String) (offers : List Offer)
    (deliveryRands : ℕ → ℚ) (now : String) : List EnrichedOffer :=
  (offers.enum.map
    (fun p => enrichOffer partId p.2 (deliveryRands p.1) now)).insertionSort priceLeE

/-! ### Helper lemmas about the classifier scan -/

theorem densityConf_le (k n : ℕ) : densityConf k n ≤ 95/100 :=
  min_le_left _ _

theorem densityConf_nonneg (k n : ℕ) : 0 ≤ densityConf k n := by
  refine le_min (by norm_num) ?_
  have h : (0:ℚ) ≤ (k : ℚ) / (n : ℚ) :=
    div_nonneg (Nat.cast_nonneg k) (Nat.cast_nonneg n)
  nlinarith

theorem eligB_iff (text : String) (m : CategoryMapping) :
    eligB text m = true ↔ 0 < keywordMatches text m ∧ m.parts ≠ [] := by
  simp [eligB, List.isEmpty_iff]

theorem scanStep_not_elig (text : String) (s : ScanState) (m : CategoryMapping)
    (h : eligB text m = false) : scanStep text s m = s := by
  unfold scanStep
  by_cases hk : 0 < keywordMatches text m
  · have hp : m.parts = [] := by
      by_contra hne
      exact absurd ((eligB_iff text m).mpr ⟨hk, hne⟩) (by simp [h])
    simp [hk, hp]
  · simp [hk]

theorem scanStep_elig (text : String) (s : ScanState) (m : CategoryMapping)
    (bp : CandidatePart) (hbp : m.parts.head? = some bp)
    (hk : 0 < keywordMatches text m) :
    scanStep text s m =
      if s.highestConfidence < adjConf text m then
        ⟨some (mkSuggestion m bp (adjConf text m) (keywordMatches text m)),
         adjConf text m⟩
      else s := by
  unfold scanStep adjConf
  simp [hk, hbp]

theorem head?_of_ne_nil {m : CategoryMapping} (h : m.parts ≠ []) :
    ∃ bp, m.parts.head? = some bp := by
  cases hp : m.parts with
  | nil => exact absurd hp h
  | cons a t => exact ⟨a, rfl⟩

/-- If no remaining category can strictly improve on the running maximum,
the scan state never moves again. -/
theorem foldl_scanStep_fixed (text : String) :
    ∀ (l : List CategoryMapping) (s : ScanState),
      (∀ m ∈ l, eligB text m = true → adjConf text m ≤ s.highestConfidence) →
      l.foldl (scanStep text) s = s
  | [], _, _ => rfl
  | m :: l, s, h => by
    have hm : scanStep text s m = s := by
      cases he : eligB text m with
      | false => exact scanStep_not_elig text s m he
      | true =>
        obtain ⟨hk, hne⟩ := (eligB_iff text m).mp he
        obtain ⟨bp, hbp⟩ := head?_of_ne_nil hne
        rw [scanStep_elig text s m bp hbp hk, if_neg]
        exact not_lt.mpr (h m (List.mem_cons_self m l) he)
    rw [List.foldl_cons, hm]
    exact foldl_scanStep_fixed text l s
      (fun m2 hm2 he2 => h m2 (List.mem_cons_of_mem m hm2) he2)

/-- The scan returns the candidate of the first category attaining the
maximal adjusted confidence: an eligible category at position i beating
the initial running maximum, at least as good as every eligible category,
and strictly better than every earlier eligible category, is the winner. -/
theorem foldl_scanStep_first_argmax (text : String) :
    ∀ (l : List CategoryMapping) (s : ScanState) (i : ℕ) (hi : i < l.length)
      (bp : CandidatePart),
      (l.get ⟨i, hi⟩).parts.head? = some bp →
      0 < keywordMatches text (l.get ⟨i, hi⟩) →
      s.highestConfidence < adjConf text (l.get ⟨i, hi⟩) →
      (∀ j (hj : j < l.length), eligB text (l.get ⟨j, hj⟩) = true →
          adjConf text (l.get ⟨j, hj⟩) ≤ adjConf text (l.get ⟨i, hi⟩)) →
      (∀ j (hj : j < i), eligB text (l.get ⟨j, Nat.lt_trans hj hi⟩) = true →
          adjConf text (l.get ⟨j, Nat.lt_trans hj hi⟩) < adjConf text (l.get ⟨i, hi⟩)) →
      l.foldl (scanStep text) s =
        ⟨some (mkSuggestion (l.get ⟨i, hi⟩) bp (adjConf text (l.get ⟨i, hi⟩))
            (keywordMatches text (l.get ⟨i, hi⟩))),
         adjConf text (l.get ⟨i, hi⟩)⟩
  | [], _, i, hi, _ => absurd hi (Nat.not_lt_zero i)
  | m :: l, s, 0, hi, bp => by
    intro hbp hk hs hmax _
    have hget : (m :: l).get ⟨0, hi⟩ = m := rfl
    rw [hget] at hbp hk hs
    rw [hget, List.foldl_cons, scanStep_elig text s m bp hbp hk, if_pos hs]
    apply foldl_scanStep_fixed
    intro m2 hm2 he2
    obtain ⟨⟨j, hj⟩, rfl⟩ := List.mem_iff_get.mp hm2
    have := hmax (j + 1) (Nat.succ_lt_succ hj) he2
    rw [hget] at this
    exact this
  | m :: l, s, i + 1, hi, bp => by
    intro hbp hk hs hmax hstrict
    have hstep : (scanStep text s m).highestConfidence <
        adjConf text ((m :: l).get ⟨i + 1, hi⟩) := by
      cases he : eligB text m with
      | false => rw [scanStep_not_elig text s m he]; exact hs
      | true =>
        obtain ⟨hk0, hne0⟩ := (eligB_iff text m).mp he
        obtain ⟨bp0, hbp0⟩ := head?_of_ne_nil hne0
        rw [scanStep_elig text s m bp0 hbp0 hk0]
        by_cases hlt : s.highestConfidence < adjConf text m
        · rw [if_pos hlt]
          exact hstrict 0 (Nat.succ_pos i) he
        · rw [if_neg hlt]; exact hs
    rw [List.foldl_cons]
    exact foldl_scanStep_first_argmax text l (scanStep text s m) i
      (Nat.lt_of_succ_lt_succ hi) bp hbp hk hstep
      (fun j hj he => hmax (j + 1) (Nat.succ_lt_succ hj) he)
      (fun j hj he => hstrict (j + 1) (Nat.succ_lt_succ hj) he)

theorem parts_conf_pos : ∀ m ∈ partMappings, ∀ bp ∈ m.parts, 0 < bp.confidence := by
  with_unfolding_all decide

/-- Invariant carried by the scan state: any best match so far names a
category of the table and its confidence is at most the base weight of
that category's top candidate part. -/
def goodState (s : ScanState) : Prop :=
  s.bestMatch = none ∨
    ∃ b m bp, s.bestMatch = some b ∧ m ∈ partMappings ∧
      m.parts.head? = some bp ∧ b.category = m.category ∧
      b.confidence ≤ bp.confidence

theorem goodState_foldl (text : String) :
    ∀ (l : List CategoryMapping) (s : ScanState),
      (∀ m ∈ l, m ∈ partMappings) → goodState s →
      goodState (l.foldl (scanStep text) s)
  | [], _, _, hgood => hgood
  | m :: l, s, hmem, hgood => by
    have hstep : goodState (scanStep text s m) := by
      cases he : eligB text m with
      | false => rw [scanStep_not_elig text s m he]; exact hgood
      | true =>
        obtain ⟨hk, hne⟩ := (eligB_iff text m).mp he
        obtain ⟨bp, hbp⟩ := head?_of_ne_nil hne
        rw [scanStep_elig text s m bp hbp hk]
        by_cases hlt : s.highestConfidence < adjConf text m
        · rw [if_pos hlt]
          right
          have hmP : m ∈ partMappings := hmem m (List.mem_cons_self m l)
          have h0 : 0 < bp.confidence :=
            parts_conf_pos m hmP bp (List.mem_of_mem_head? hbp)
          refine ⟨_, m, bp, rfl, hmP, hbp, rfl, ?_⟩
          have hadj : adjConf text m =
              bp.confidence * densityConf (keywordMatches text m) m.keywords.length := by
            unfold adjConf; rw [hbp]
          rw [hadj]
          calc bp.confidence * densityConf (keywordMatches text m) m.keywords.length
              ≤ bp.confidence * 1 := by
                refine mul_le_mul_of_nonneg_left ?_ (le_of_lt h0)
                exact le_trans (densityConf_le _ _) (by norm_num)
            _ = bp.confidence := mul_one _
        · rw [if_neg hlt]; exact hgood
    rw [List.foldl_cons]
    exact goodState_foldl text l (scanStep text s m)
      (fun m2 hm2 => hmem m2 (List.mem_cons_of_mem m hm2)) hstep

theorem adjConf_eq (text : String) (m : CategoryMapping) (bp : CandidatePart)
    (hbp : m.parts.head? = some bp) :
    adjConf text m =
      bp.confidence * densityConf (keywordMatches text m) m.keywords.length := by
  unfold adjConf; rw [hbp]

theorem densityConf_pos (k n : ℕ) : 0 < densityConf k n := by
  refine lt_min (by norm_num) ?_
  have h : (0:ℚ) ≤ (k : ℚ) / (n : ℚ) :=
    div_nonneg (Nat.cast_nonneg k) (Nat.cast_nonneg n)
  nlinarith

/-! ### Claim theorems: classifier -/

/-- C1 (counterexample): on the text "fren tutmuyor arka kısımdan ses
geliyor" the classifier does return category "fren", part id
"part-fren-001" and at least 3 matched keywords, but the claimed
confidence bound fails: the conjunction with confidence > 0.5 is false
(the actual confidence is 0.42). -/
theorem claim1_counterexample :
    ¬ ((interpretPartFromText "fren tutmuyor arka kısımdan ses geliyor" "").category = "fren" ∧
       (interpretPartFromText "fren tutmuyor arka kısımdan ses geliyor" "").id = "part-fren-001" ∧
       3 ≤ (interpretPartFromText "fren tutmuyor arka kısımdan ses geliyor" "").matchedKeywords ∧
       1/2 < (interpretPartFromText "fren tutmuyor arka kısımdan ses geliyor" "").confidence) := by
  with_unfolding_all decide

/-- C1 (amended): calling the classifier on the text "fren tutmuyor arka
kısımdan ses geliyor" returns category "fren", part id "part-fren-001",
a matched-keyword count of at least 3, and a confidence strictly greater
than 0.4 (the exact value is 21/50 = 0.42, not > 0.5). -/
theorem claim1_amended_theorem :
    (interpretPartFromText "fren tutmuyor arka kısımdan ses geliyor" "").category = "fren" ∧
    (interpretPartFromText "fren tutmuyor arka kısımdan ses geliyor" "").id = "part-fren-001" ∧
    3 ≤ (interpretPartFromText "fren tutmuyor arka kısımdan ses geliyor" "").matchedKeywords ∧
    2/5 < (interpretPartFromText "fren tutmuyor arka kısımdan ses geliyor" "").confidence := by
  with_unfolding_all decide

/-- C2: for every input text, every category's keyword-density confidence
lies in [0, 0.95] before the category-weighted adjustment, and the final
confidence of the returned suggestion is at most the winning candidate
part's base weight (the fallback suggestion carries its fixed 0.3). -/
theorem claim2_confidence_bounds (description vin : String) :
    (∀ m ∈ partMappings,
      0 ≤ densityConf (keywordMatches (jsToLower description) m) m.keywords.length ∧
      densityConf (keywordMatches (jsToLower description) m) m.keywords.length ≤ 95/100) ∧
    (interpretPartFromText description vin = fallbackSuggestion ∨
      ∃ m bp, m ∈ partMappings ∧ m.parts.head? = some bp ∧
        (interpretPartFromText description vin).category = m.category ∧
        (interpretPartFromText description vin).confidence ≤ bp.confidence) := by
  constructor
  · exact fun m _ => ⟨densityConf_nonneg _ _, densityConf_le _ _⟩
  · have hg := goodState_foldl (jsToLower description) partMappings ⟨none, 0⟩
      (fun m hm => hm) (Or.inl rfl)
    unfold interpretPartFromText interpretLow
    rcases hg with hnone | ⟨b, m, bp, hb, hm, hbp, hcat, hconf⟩
    · rw [hnone]; left; rfl
    · rw [hb]; right; exact ⟨m, bp, hm, hbp, hcat, hconf⟩

/-- C2 witness: the bounds instantiated at a concrete call. -/
theorem claim2_witness :
    (∀ m ∈ partMappings,
      0 ≤ densityConf (keywordMatches (jsToLower "fren") m) m.keywords.length ∧
      densityConf (keywordMatches (jsToLower "fren") m) m.keywords.length ≤ 95/100) ∧
    (interpretPartFromText "fren" "vin" = fallbackSuggestion ∨
      ∃ m bp, m ∈ partMappings ∧ m.parts.head? = some bp ∧
        (interpretPartFromText "fren" "vin").category = m.category ∧
        (interpretPartFromText "fren" "vin").confidence ≤ bp.confidence) :=
  claim2_confidence_bounds "fren" "vin"

set_option linter.unusedVariables false in
/-- C3: the categories are evaluated in the fixed order fren, motor,
elektrik, suspansiyon, klima, and the best candidate is replaced only on
strict improvement of adjusted confidence: if the category at the earlier
position i and the one at the later position j tie exactly on adjusted
confidence, no category beats them, and every category before i is
strictly worse, then the suggestion returned is position i's. -/
theorem claim3_tie_break :
    partMappings.map CategoryMapping.category =
      ["fren", "motor", "elektrik", "suspansiyon", "klima"] ∧
    ∀ (description vin : String) (i j : ℕ)
      (hi : i < partMappings.length) (hj : j < partMappings.length),
      i < j →
      eligB (jsToLower description) (partMappings.get ⟨i, hi⟩) = true →
      eligB (jsToLower description) (partMappings.get ⟨j, hj⟩) = true →
      adjConf (jsToLower description) (partMappings.get ⟨i, hi⟩) =
        adjConf (jsToLower description) (partMappings.get ⟨j, hj⟩) →
      (∀ k (hk : k < partMappings.length),
        eligB (jsToLower description) (partMappings.get ⟨k, hk⟩) = true →
        adjConf (jsToLower description) (partMappings.get ⟨k, hk⟩) ≤
          adjConf (jsToLower description) (partMappings.get ⟨i, hi⟩)) →
      (∀ k (hk : k < i),
        eligB (jsToLower description) (partMappings.get ⟨k, Nat.lt_trans hk hi⟩) = true →
        adjConf (jsToLower description) (partMappings.get ⟨k, Nat.lt_trans hk hi⟩) <
          adjConf (jsToLower description) (partMappings.get ⟨i, hi⟩)) →
      (interpretPartFromText description vin).category =
        (partMappings.get ⟨i, hi⟩).category := by
  refine ⟨rfl, ?_⟩
  intro description vin i j hi hj hij hei hej heq hmax hstrict
  obtain ⟨hk, hne⟩ := (eligB_iff _ _).mp hei
  obtain ⟨bp, hbp⟩ := head?_of_ne_nil hne
  have hbpc : 0 < bp.confidence :=
    parts_conf_pos _ (partMappings.get_mem i hi) bp (List.mem_of_mem_head? hbp)
  have hpos : (0:ℚ) < adjConf (jsToLower description) (partMappings.get ⟨i, hi⟩) := by
    rw [adjConf_eq _ _ bp hbp]
    exact mul_pos hbpc (densityConf_pos _ _)
  have hfold := foldl_scanStep_first_argmax (jsToLower description) partMappings
    ⟨none, 0⟩ i hi bp hbp hk hpos hmax hstrict
  unfold interpretPartFromText interpretLow
  rw [hfold]
  rfl

/-- C3 witness: on "fren elektrik" the fren and elektrik categories tie
exactly (both 1 matched keyword out of 9, base weight 0.9) and fren, the
earlier category, wins. -/
theorem claim3_witness :
    (interpretPartFromText "fren elektrik" "vin").category =
      (partMappings.get ⟨0, by with_unfolding_all decide⟩).category :=
  claim3_tie_break.2 "fren elektrik" "vin" 0 2
    (by with_unfolding_all decide) (by with_unfolding_all decide)
    (by with_unfolding_all decide) (by with_unfolding_all decide)
    (by with_unfolding_all decide) (by with_unfolding_all decide)
    (by with_unfolding_all decide) (by with_unfolding_all decide)

/-- C6: when no category's keyword occurs as a substring of the lowered
text, the classifier returns the fixed fallback suggestion (name "Genel
Kontrol Gerekli", id "part-general-001", confidence 0.3, category
"general", matched-keyword count 0); the embedding is a total function,
so no input raises an exception. -/
theorem claim6_fallback (description vin : String)
    (h : ∀ m ∈ partMappings, ∀ kw ∈ m.keywords,
      strIncludes (jsToLower description) kw = false) :
    interpretPartFromText description vin = fallbackSuggestion := by
  unfold interpretPartFromText interpretLow
  rw [foldl_scanStep_fixed (jsToLower description) partMappings ⟨none, 0⟩]
  · rfl
  · intro m hm he
    exfalso
    have hzero : keywordMatches (jsToLower description) m = 0 := by
      unfold keywordMatches
      refine List.countP_eq_zero.mpr ?_
      intro kw hkw
      simp [h m hm kw hkw]
    have hk := ((eligB_iff _ _).mp he).1
    omega

/-- C6 witness: a keyword-free text yields the fallback. -/
theorem claim6_witness :
    interpretPartFromText "qqq xyz" "vin" = fallbackSuggestion :=
  claim6_fallback "qqq xyz" "vin" (by with_unfolding_all decide)

/-- C7: when "fren" occurs in the lowered text and no other keyword of any
category does, the classifier returns category "fren" with one matched
keyword and confidence exactly 0.9 * min(0.95, (1/9) * 0.8 + 0.2). -/
theorem claim7_single_fren (description vin : String)
    (h1 : strIncludes (jsToLower description) "fren" = true)
    (h2 : ∀ m ∈ partMappings, ∀ kw ∈ m.keywords, kw ≠ "fren" →
      strIncludes (jsToLower description) kw = false) :
    (interpretPartFromText description vin).category = "fren" ∧
    (interpretPartFromText description vin).matchedKeywords = 1 ∧
    (interpretPartFromText description vin).confidence =
      (9/10) * min (95/100 : ℚ) ((1/9) * (8/10) + 2/10) := by
  have hmemf : frenMapping ∈ partMappings := by
    unfold partMappings; exact List.mem_cons_self _ _
  have hkf : keywordMatches (jsToLower description) frenMapping = 1 := by
    have e1 : strIncludes (jsToLower description) "balata" = false :=
      h2 frenMapping hmemf "balata" (by decide) (by decide)
    have e2 : strIncludes (jsToLower description) "disk" = false :=
      h2 frenMapping hmemf "disk" (by decide) (by decide)
    have e3 : strIncludes (jsToLower description) "durmuyor" = false :=
      h2 frenMapping hmemf "durmuyor" (by decide) (by decide)
    have e4 : strIncludes (jsToLower description) "tutmuyor" = false :=
      h2 frenMapping hmemf "tutmuyor" (by decide) (by decide)
    have e5 : strIncludes (jsToLower description) "gıcırdıyor" = false :=
      h2 frenMapping hmemf "gıcırdıyor" (by decide) (by decide)
    have e6 : strIncludes (jsToLower description) "ses" = false :=
      h2 frenMapping hmemf "ses" (by decide) (by decide)
    have e7 : strIncludes (jsToLower description) "titreşim" = false :=
      h2 frenMapping hmemf "titreşim" (by decide) (by decide)
    have e8 : strIncludes (jsToLower description) "pedal" = false :=
      h2 frenMapping hmemf "pedal" (by decide) (by decide)
    simp [keywordMatches, frenMapping, List.countP_cons, List.countP_nil,
      h1, e1, e2, e3, e4, e5, e6, e7, e8]
  have hk0 : ∀ m ∈ partMappings, m ≠ frenMapping →
      keywordMatches (jsToLower description) m = 0 := by
    intro m hm hne
    unfold keywordMatches
    refine List.countP_eq_zero.mpr ?_
    intro kw hkw
    have hkne : kw ≠ "fren" := by
      have hmm : m = motorMapping ∨ m = elektrikMapping ∨
          m = suspansiyonMapping ∨ m = klimaMapping := by
        have : m = frenMapping ∨ m = motorMapping ∨ m = elektrikMapping ∨
            m = suspansiyonMapping ∨ m = klimaMapping := by
          simpa [partMappings] using hm
        tauto
      rcases hmm with rfl | rfl | rfl | rfl <;>
        · revert hkw
          intro hkw
          fin_cases hkw <;> decide
    simp [h2 m hm kw hkw hkne]
  have hkm : keywordMatches (jsToLower description) motorMapping = 0 := by
    refine hk0 motorMapping ?_ (by with_unfolding_all decide)
    unfold partMappings
    exact List.mem_cons_of_mem _ (List.mem_cons_self _ _)
  have hke : keywordMatches (jsToLower description) elektrikMapping = 0 := by
    refine hk0 elektrikMapping ?_ (by with_unfolding_all decide)
    unfold partMappings
    exact List.mem_cons_of_mem _ (List.mem_cons_of_mem _ (List.mem_cons_self _ _))
  have hks : keywordMatches (jsToLower description) suspansiyonMapping = 0 := by
    refine hk0 suspansiyonMapping ?_ (by with_unfolding_all decide)
    unfold partMappings
    exact List.mem_cons_of_mem _
      (List.mem_cons_of_mem _ (List.mem_cons_of_mem _ (List.mem_cons_self _ _)))
  have hkk : keywordMatches (jsToLower description) klimaMapping = 0 := by
    refine hk0 klimaMapping ?_ (by with_unfolding_all decide)
    unfold partMappings
    exact List.mem_cons_of_mem _ (List.mem_cons_of_mem _
      (List.mem_cons_of_mem _ (List.mem_cons_of_mem _ (List.mem_cons_self _ _))))
  have hbp : frenMapping.parts.head? = some ⟨"Fren Balatası Ön", "part-fren-001", 9/10⟩ := rfl
  have hadj : adjConf (jsToLower description) frenMapping = (9/10) * densityConf 1 9 := by
    rw [adjConf_eq _ _ _ hbp, hkf]
    rfl
  have hfold := foldl_scanStep_first_argmax (jsToLower description) partMappings
    ⟨none, 0⟩ 0 (by norm_num [partMappings]) ⟨"Fren Balatası Ön", "part-fren-001", 9/10⟩
    hbp (by rw [show partMappings.get ⟨0, by norm_num [partMappings]⟩ = frenMapping from rfl, hkf]; omega)
    (by
      show (0:ℚ) < adjConf (jsToLower description) frenMapping
      rw [hadj]
      exact mul_pos (by norm_num) (densityConf_pos _ _))
    (by
      intro j hj he
      have hj5 : j < 5 := by simpa [partMappings] using hj
      interval_cases j
      · exact le_refl _
      · exfalso
        have h0 : 0 < keywordMatches (jsToLower description) motorMapping :=
          ((eligB_iff _ _).mp he).1
        omega
      · exfalso
        have h0 : 0 < keywordMatches (jsToLower description) elektrikMapping :=
          ((eligB_iff _ _).mp he).1
        omega
      · exfalso
        have h0 : 0 < keywordMatches (jsToLower description) suspansiyonMapping :=
          ((eligB_iff _ _).mp he).1
        omega
      · exfalso
        have h0 : 0 < keywordMatches (jsToLower description) klimaMapping :=
          ((eligB_iff _ _).mp he).1
        omega)
    (fun j hj => absurd hj (Nat.not_lt_zero j))
  unfold interpretPartFromText interpretLow
  rw [hfold]
  refine ⟨rfl, hkf, ?_⟩
  show adjConf (jsToLower description) frenMapping = _
  rw [hadj]
  norm_num [densityConf]

/-- C7 witness: the text "fren" itself contains the keyword "fren" and no
other keyword of any category. -/
theorem claim7_witness :
    (interpretPartFromText "fren" "vin").category = "fren" ∧
    (interpretPartFromText "fren" "vin").matchedKeywords = 1 ∧
    (interpretPartFromText "fren" "vin").confidence =
      (9/10) * min (95/100 : ℚ) ((1/9) * (8/10) + 2/10) :=
  claim7_single_fren "fren" "vin" (by with_unfolding_all decide)
    (by with_unfolding_all decide)

/-- C9: the classifier's result depends only on the description text: two
calls with the same description and arbitrary different vin arguments
return the identical suggestion (the embedding is a pure function of the
description and draws no randomness). -/
theorem claim9_vin_independent (description vin₁ vin₂ : String) :
    interpretPartFromText description vin₁ = interpretPartFromText description vin₂ :=
  rfl

/-! ### Claim theorems: offer synthesizer -/

/-- A sample seller profile used to instantiate the synthesizer claims. -/
def sampleSeller : Seller :=
  ⟨"Oto Parça Merkezi", "İstanbul", 45/10, "0212 555 0101", "info@otoparca.com", []⟩

/-- A random stream that always draws 0 (a legal Math.random() value). -/
def zeroRand : ℕ → ℚ := fun _ => 0

/-- C4: the number of synthesized offers never exceeds the seller-pool
size and always lies in [min(2, poolSize), min(5, poolSize)]; in
particular an empty pool yields the empty list rather than an error.
Hypotheses: the numSellers random draw lies in [0, 1) as Math.random()
guarantees, and the shuffle permutes the pool as Array.prototype.sort
does. -/
theorem claim4_offer_count (partId : String) (pool : List Seller) (numRand : ℚ)
    (shuffle : List Seller → List Seller) (priceRands stockRands : ℕ → ℚ)
    (h0 : 0 ≤ numRand) (h1 : numRand < 1)
    (hperm : (shuffle pool).Perm pool) :
    (generateSellersForPart partId pool numRand shuffle priceRands stockRands).length ≤
      pool.length ∧
    min 2 pool.length ≤
      (generateSellersForPart partId pool numRand shuffle priceRands stockRands).length ∧
    (generateSellersForPart partId pool numRand shuffle priceRands stockRands).length ≤
      min 5 pool.length ∧
    (pool = [] →
      generateSellersForPart partId pool numRand shuffle priceRands stockRands = []) := by
  have hL : (shuffle pool).length = pool.length := hperm.length_eq
  have hfl0 : (0:ℤ) ≤ ⌊numRand * 4⌋ := Int.floor_nonneg.mpr (by positivity)
  have hfl3 : ⌊numRand * 4⌋ < 4 := Int.floor_lt.mpr (by push_cast; linarith)
  have hlen : (generateSellersForPart partId pool numRand shuffle priceRands stockRands).length
      = min ((⌊numRand * 4⌋ + 2).toNat) pool.length := by
    unfold generateSellersForPart offersFromShuffled sortOffersByPrice
    rw [List.length_insertionSort, List.length_map, List.enum_length,
      List.length_take, hL]
    omega
  refine ⟨?_, ?_, ?_, ?_⟩
  · rw [hlen]; omega
  · rw [hlen]; omega
  · rw [hlen]; omega
  · intro hnil
    have : (generateSellersForPart partId pool numRand shuffle priceRands stockRands).length = 0 := by
      rw [hlen, hnil]
      simp
    exact List.length_eq_zero.mp this

/-- C4 witness: one seller in the pool, identity shuffle, zero draws. -/
theorem claim4_witness :
    (generateSellersForPart "part-xyz" [sampleSeller] 0 id zeroRand zeroRand).length ≤
      [sampleSeller].length ∧
    min 2 [sampleSeller].length ≤
      (generateSellersForPart "part-xyz" [sampleSeller] 0 id zeroRand zeroRand).length ∧
    (generateSellersForPart "part-xyz" [sampleSeller] 0 id zeroRand zeroRand).length ≤
      min 5 [sampleSeller].length ∧
    ([sampleSeller] = [] →
      generateSellersForPart "part-xyz" [sampleSeller] 0 id zeroRand zeroRand = []) :=
  claim4_offer_count "part-xyz" [sampleSeller] 0 id zeroRand zeroRand
    le_rfl (by norm_num) (List.Perm.refl _)

/-- C5: every synthesized offer's price is the base price implied by the
partId's first matching substring rule (priority motor 800, fren 300,
elektrik 200, suspansiyon 400, klima 250, govde 600, ic-aksam 150,
default 100) times a factor in [0.8, 1.2], rounded to the nearest
integer; the hypothesis is that the price random draws lie in [0, 1). -/
theorem claim5_pricing (partId : String) (pool : List Seller) (numRand : ℚ)
    (shuffle : List Seller → List Seller) (priceRands stockRands : ℕ → ℚ)
    (hpr : ∀ i, 0 ≤ priceRands i ∧ priceRands i < 1) :
    (∀ o ∈ generateSellersForPart partId pool numRand shuffle priceRands stockRands,
      ∃ f : ℚ, 4/5 ≤ f ∧ f ≤ 6/5 ∧
        o.price = round ((basePriceFor partId : ℚ) * f)) ∧
    (strIncludes partId "motor" = true → basePriceFor partId = 800) ∧
    (strIncludes partId "motor" = false → strIncludes partId "fren" = true →
      basePriceFor partId = 300) ∧
    (strIncludes partId "motor" = false → strIncludes partId "fren" = false →
      strIncludes partId "elektrik" = true → basePriceFor partId = 200) ∧
    (strIncludes partId "motor" = false → strIncludes partId "fren" = false →
      strIncludes partId "elektrik" = false → strIncludes partId "suspansiyon" = true →
      basePriceFor partId = 400) ∧
    (strIncludes partId "motor" = false → strIncludes partId "fren" = false →
      strIncludes partId "elektrik" = false → strIncludes partId "suspansiyon" = false →
      strIncludes partId "klima" = true → basePriceFor partId = 250) ∧
    (strIncludes partId "motor" = false → strIncludes partId "fren" = false →
      strIncludes partId "elektrik" = false → strIncludes partId "suspansiyon" = false →
      strIncludes partId "klima" = false → strIncludes partId "govde" = true →
      basePriceFor partId = 600) ∧
    (strIncludes partId "motor" = false → strIncludes partId "fren" = false →
      strIncludes partId "elektrik" = false → strIncludes partId "suspansiyon" = false →
      strIncludes partId "klima" = false → strIncludes partId "govde" = false →
      strIncludes partId "ic-aksam" = true → basePriceFor partId = 150) ∧
    (strIncludes partId "motor" = false → strIncludes partId "fren" = false →
      strIncludes partId "elektrik" = false → strIncludes partId "suspansiyon" = false →
      strIncludes partId "klima" = false → strIncludes partId "govde" = false →
      strIncludes partId "ic-aksam" = false → basePriceFor partId = 100) := by
  constructor
  · intro o ho
    unfold generateSellersForPart offersFromShuffled sortOffersByPrice at ho
    rw [List.mem_insertionSort] at ho
    obtain ⟨p, hp, rfl⟩ := List.mem_map.mp ho
    refine ⟨1 + (priceRands p.1 - 1/2) * (4/10), ?_, ?_, rfl⟩
    · have := (hpr p.1).1
      linarith
    · have := (hpr p.1).2
      linarith
  · refine ⟨?_, ?_, ?_, ?_, ?_, ?_, ?_, ?_⟩ <;>
      · intros
        simp only [basePriceFor, *]
        simp

/-- C5 witness: a fren part with one seller and zero draws; the offer
price is round(300 * 0.8) = 240. -/
theorem claim5_witness :
    (∀ o ∈ generateSellersForPart "part-fren-001" [sampleSeller] 0 id zeroRand zeroRand,
      ∃ f : ℚ, 4/5 ≤ f ∧ f ≤ 6/5 ∧
        o.price = round ((basePriceFor "part-fren-001" : ℚ) * f)) ∧
    (strIncludes "part-fren-001" "motor" = true → basePriceFor "part-fren-001" = 800) ∧
    (strIncludes "part-fren-001" "motor" = false → strIncludes "part-fren-001" "fren" = true →
      basePriceFor "part-fren-001" = 300) ∧
    (strIncludes "part-fren-001" "motor" = false → strIncludes "part-fren-001" "fren" = false →
      strIncludes "part-fren-001" "elektrik" = true → basePriceFor "part-fren-001" = 200) ∧
    (strIncludes "part-fren-001" "motor" = false → strIncludes "part-fren-001" "fren" = false →
      strIncludes "part-fren-001" "elektrik" = false → strIncludes "part-fren-001" "suspansiyon" = true →
      basePriceFor "part-fren-001" = 400) ∧
    (strIncludes "part-fren-001" "motor" = false → strIncludes "part-fren-001" "fren" = false →
      strIncludes "part-fren-001" "elektrik" = false → strIncludes "part-fren-001" "suspansiyon" = false →
      strIncludes "part-fren-001" "klima" = true → basePriceFor "part-fren-001" = 250) ∧
    (strIncludes "part-fren-001" "motor" = false → strIncludes "part-fren-001" "fren" = false →
      strIncludes "part-fren-001" "elektrik" = false → strIncludes "part-fren-001" "suspansiyon" = false →
      strIncludes "part-fren-001" "klima" = false → strIncludes "part-fren-001" "govde" = true →
      basePriceFor "part-fren-001" = 600) ∧
    (strIncludes "part-fren-001" "motor" = false → strIncludes "part-fren-001" "fren" = false →
      strIncludes "part-fren-001" "elektrik" = false → strIncludes "part-fren-001" "suspansiyon" = false →
      strIncludes "part-fren-001" "klima" = false → strIncludes "part-fren-001" "govde" = false →
      strIncludes "part-fren-001" "ic-aksam" = true → basePriceFor "part-fren-001" = 150) ∧
    (strIncludes "part-fren-001" "motor" = false → strIncludes "part-fren-001" "fren" = false →
      strIncludes "part-fren-001" "elektrik" = false → strIncludes "part-fren-001" "suspansiyon" = false →
      strIncludes "part-fren-001" "klima" = false → strIncludes "part-fren-001" "govde" = false →
      strIncludes "part-fren-001" "ic-aksam" = false → basePriceFor "part-fren-001" = 100) :=
  claim5_pricing "part-fren-001" [sampleSeller] 0 id zeroRand zeroRand
    (fun i => ⟨le_rfl, by norm_num [zeroRand]⟩)

/-- C8: both the raw synthesis result and the enriched offer list are
sorted ascending by price, so the offer sequence visible to the caller
is non-decreasing in price. -/
theorem claim8_sorted (partId : String) (pool : List Seller) (numRand : ℚ)
    (shuffle : List Seller → List Seller) (priceRands stockRands : ℕ → ℚ)
    (offers : List Offer) (deliveryRands : ℕ → ℚ) (now : String) :
    List.Sorted priceLe
      (generateSellersForPart partId pool numRand shuffle priceRands stockRands) ∧
    List.Sorted priceLeE (enrichAndRank partId offers deliveryRands now) := by
  constructor
  · unfold generateSellersForPart offersFromShuffled sortOffersByPrice
    exact List.sorted_insertionSort priceLe _
  · unfold enrichAndRank
    exact List.sorted_insertionSort priceLeE _

/-- C10: the synthesizer never mutates the caller's seller array: the
spread copies the pool into a fresh array and the in-place shuffle sorts
only that copy, so after the call the pool reference still holds exactly
the original seller records, and the produced offers agree with the pure
model of the function. -/
theorem claim10_no_mutation (partId : String) (poolRef : ℕ) (h : JsHeap)
    (numRand : ℚ) (shuffle : List Seller → List Seller)
    (priceRands stockRands : ℕ → ℚ) (hvalid : poolRef < h.nextRef) :
    (generateSellersForPartHeap partId poolRef h numRand shuffle
        priceRands stockRands).2.arrays poolRef = h.arrays poolRef ∧
    (generateSellersForPartHeap partId poolRef h numRand shuffle
        priceRands stockRands).1 =
      generateSellersForPart partId (h.arrays poolRef) numRand shuffle
        priceRands stockRands := by
  have hne : poolRef ≠ h.nextRef := Nat.ne_of_lt hvalid
  constructor
  · unfold generateSellersForPartHeap allocArr writeArr
    simp [hne]
  · unfold generateSellersForPartHeap allocArr writeArr
      generateSellersForPart
    simp

/-- C10 witness: a one-array heap; the pool at reference 0 is untouched. -/
theorem claim10_witness :
    (generateSellersForPartHeap "part-xyz" 0 ⟨fun _ => [sampleSeller], 1⟩ 0 id
        zeroRand zeroRand).2.arrays 0 = (⟨fun _ => [sampleSeller], 1⟩ : JsHeap).arrays 0 ∧
    (generateSellersForPartHeap "part-xyz" 0 ⟨fun _ => [sampleSeller], 1⟩ 0 id
        zeroRand zeroRand).1 =
      generateSellersForPart "part-xyz"
        ((⟨fun _ => [sampleSeller], 1⟩ : JsHeap).arrays 0) 0 id zeroRand zeroRand :=
  claim10_no_mutation "part-xyz" 0 ⟨fun _ => [sampleSeller], 1⟩ 0 id
    zeroRand zeroRand (by decide)

end SparePartFinder
